import Mathlib

/-!
Verification development for the cynes NES emulator core
(`src/mapper.hpp`, `src/wrapper.cpp`).

The C++ sources are shallowly embedded: machine integers become `Nat`
values reduced modulo their width where the code truncates, byte buffers
become `List Nat` whose elements are bytes, and the polymorphic
`dump<operation>` walk becomes a pair of pure functions (WRITE produces
bytes at an advancing cursor, READ consumes them).  Parts of the
repository that are not present under `src/` (`utils.hpp`, `mapper.cpp`,
`nes.cpp`, `wrapper.hpp`) are modelled from the specification; each such
definition says so in its doc comment.
-/

namespace Cynes

/-- Modelled from the spec: the `cynes::dump` primitive of `utils.hpp`
(not under `src/`) copies a fixed-width integer field to the byte cursor
in `WRITE` mode, little-endian, native width.  `encLE k n` is the
little-endian encoding of `n` on `k` bytes. -/
def encLE : Nat → Nat → List Nat
  | 0, _ => []
  | k + 1, n => n % 256 :: encLE k (n / 256)

/-- Modelled from the spec: the `READ` direction of the `cynes::dump`
primitive for a `k`-byte little-endian integer; returns the decoded value
and the rest of the buffer after advancing the cursor. -/
def decLEtake : Nat → List Nat → Nat × List Nat
  | 0, buf => (0, buf)
  | _ + 1, [] => (0, [])
  | k + 1, b :: bs =>
    let r := decLEtake k bs
    (b + 256 * r.1, r.2)

/-- Modelled from the spec: a boolean field is dumped as a single byte. -/
def boolByte (b : Bool) : Nat := if b then 1 else 0

/-- Modelled from the spec: the `READ` direction for a boolean field
(one byte consumed; a nonzero byte reads back as `true`). -/
def decBoolTake : List Nat → Bool × List Nat
  | [] => (false, [])
  | b :: bs => (b != 0, bs)

/-- `Mapper::MemoryBank` (`mapper.hpp`): a 0x400-byte view into the
mapper memory, given by an offset, a read-only flag and a mapped flag. -/
structure MemoryBank where
  offset : Nat
  read_only : Bool
  mapped : Bool
deriving DecidableEq

/-- `MemoryBank::dump` in `WRITE` mode (`mapper.hpp` lines 114-119):
offset (a `size_t`, 8 bytes), then the two flags, appended at the
cursor `acc`. -/
def MemoryBank.dumpW (acc : List Nat) (b : MemoryBank) : List Nat :=
  ((acc ++ encLE 8 b.offset) ++ [boolByte b.read_only]) ++ [boolByte b.mapped]

/-- The bytes contributed by one `MemoryBank` in `WRITE` mode. -/
def MemoryBank.enc (b : MemoryBank) : List Nat :=
  encLE 8 b.offset ++ [boolByte b.read_only, boolByte b.mapped]

/-- `MemoryBank::dump` in `READ` mode: decode offset then the two flags,
returning the decoded bank and the advanced cursor. -/
def MemoryBank.decTake (buf : List Nat) : MemoryBank × List Nat :=
  let r₁ := decLEtake 8 buf
  let r₂ := decBoolTake r₁.2
  let r₃ := decBoolTake r₂.2
  (⟨r₁.1, r₂.1, r₃.1⟩, r₃.2)

/-- `READ` mode over a fixed count of consecutive `MemoryBank` entries
(the `for (k < 0x40)` / `for (k < 0x10)` loops of `Mapper::dump`). -/
def decBanks : Nat → List Nat → List MemoryBank × List Nat
  | 0, buf => ([], buf)
  | n + 1, buf =>
    let r := MemoryBank.decTake buf
    let rs := decBanks n r.2
    (r.1 :: rs.1, rs.2)

/-- The serialized state of the `Mapper` base class (`mapper.hpp`).
The C++ keeps one contiguous array `[PRG | CHR | CPU-RAM | PPU-RAM]`;
PRG is never dumped, so only the three mutable regions appear here,
each as its own list of bytes.  `_size_chr` etc. are the lengths of the
region lists. -/
structure MapperState where
  read_only_chr : Bool
  banks_cpu : List MemoryBank
  banks_ppu : List MemoryBank
  mem_chr : List Nat
  mem_cpu_ram : List Nat
  mem_ppu_ram : List Nat
deriving DecidableEq

/-- `Mapper::dump` in `WRITE` mode (`mapper.hpp` lines 165-186): the 64
CPU banks, the 16 PPU banks, then CHR (only when CHR is RAM), CPU work
RAM (when present) and PPU work RAM (when present), all appended at the
cursor `acc`. -/
def MapperState.dumpW (acc : List Nat) (s : MapperState) : List Nat :=
  let a₁ := s.banks_cpu.foldl MemoryBank.dumpW acc
  let a₂ := s.banks_ppu.foldl MemoryBank.dumpW a₁
  let a₃ := if s.read_only_chr then a₂ else a₂ ++ s.mem_chr
  let a₄ := if s.mem_cpu_ram.length ≠ 0 then a₃ ++ s.mem_cpu_ram else a₃
  if s.mem_ppu_ram.length ≠ 0 then a₄ ++ s.mem_ppu_ram else a₄

/-- The full save-state segment produced by `Mapper::dump` in `WRITE`
mode, starting from an empty buffer. -/
def MapperState.dumpWrite (s : MapperState) : List Nat :=
  s.dumpW []

/-- `Mapper::dump` in `READ` mode: the same walk, in the same order,
copying from the buffer into the fields.  The loop bounds (0x40 and
0x10) and the region sizes are fixed by the mapper, not by the buffer. -/
def MapperState.dumpRead (buf : List Nat) (s : MapperState) :
    MapperState × List Nat :=
  let rc := decBanks 0x40 buf
  let rp := decBanks 0x10 rc.2
  let rchr :=
    if s.read_only_chr then (s.mem_chr, rp.2)
    else (rp.2.take s.mem_chr.length, rp.2.drop s.mem_chr.length)
  let rcram :=
    if s.mem_cpu_ram.length ≠ 0 then
      (rchr.2.take s.mem_cpu_ram.length, rchr.2.drop s.mem_cpu_ram.length)
    else (s.mem_cpu_ram, rchr.2)
  let rpram :=
    if s.mem_ppu_ram.length ≠ 0 then
      (rcram.2.take s.mem_ppu_ram.length, rcram.2.drop s.mem_ppu_ram.length)
    else (s.mem_ppu_ram, rcram.2)
  ({ s with
      banks_cpu := rc.1
      banks_ppu := rp.1
      mem_chr := rchr.1
      mem_cpu_ram := rcram.1
      mem_ppu_ram := rpram.1 }, rpram.2)

/-- Well-formedness of a mapper state: the bank tables have the sizes of
the C++ `std::array` fields and every offset fits in a `size_t`. -/
def MapperState.WF (s : MapperState) : Prop :=
  s.banks_cpu.length = 0x40 ∧ s.banks_ppu.length = 0x10 ∧
    (∀ b ∈ s.banks_cpu, b.offset < 2 ^ 64) ∧
    (∀ b ∈ s.banks_ppu, b.offset < 2 ^ 64)

instance (s : MapperState) : Decidable s.WF := by
  unfold MapperState.WF
  infer_instance

/-- The 64 CPU bank entries as dumped, in order. -/
def cpuBanksSeg (s : MapperState) : List Nat :=
  (s.banks_cpu.map MemoryBank.enc).flatten

/-- The 16 PPU bank entries as dumped, in order. -/
def ppuBanksSeg (s : MapperState) : List Nat :=
  (s.banks_ppu.map MemoryBank.enc).flatten

/-- The CHR region as dumped: present exactly when CHR is RAM. -/
def chrSeg (s : MapperState) : List Nat :=
  if s.read_only_chr then [] else s.mem_chr

/-- The CPU work RAM region as dumped: present when nonempty. -/
def cpuRamSeg (s : MapperState) : List Nat :=
  if s.mem_cpu_ram.length ≠ 0 then s.mem_cpu_ram else []

/-- The PPU work RAM region as dumped: present when nonempty. -/
def ppuRamSeg (s : MapperState) : List Nat :=
  if s.mem_ppu_ram.length ≠ 0 then s.mem_ppu_ram else []

/-- The serialized state added by the `MMC<BANK_SIZE>` template
(`mapper.hpp` lines 445-457): the two CHR latches and the four selected
CHR bank registers. -/
structure MMCSer where
  core : MapperState
  latch0 : Bool
  latch1 : Bool
  selected_banks : List Nat
deriving DecidableEq

/-- `MMC::dump` in `WRITE` mode (`mapper.hpp` lines 451-457): the base
`Mapper::dump`, then `_latches` (two booleans), then `_selected_banks`
(four bytes). -/
def MMCSer.dumpW (acc : List Nat) (m : MMCSer) : List Nat :=
  ((m.core.dumpW acc ++ [boolByte m.latch0, boolByte m.latch1]) ++
    (m.selected_banks.map (encLE 1)).flatten)

/-- The full `MMC::dump` output starting from an empty buffer. -/
def MMCSer.dumpWrite (m : MMCSer) : List Nat :=
  m.dumpW []

/-- The variant-specific tail of the MMC2/MMC4 save-state segment. -/
def mmcVariantSeg (m : MMCSer) : List Nat :=
  [boolByte m.latch0, boolByte m.latch1] ++
    (m.selected_banks.map (encLE 1)).flatten

/-- The serialized state added by `MMC3` (`mapper.hpp` lines 313-343). -/
structure MMC3Ser where
  core : MapperState
  tick : Nat
  registers : List Nat
  counter : Nat
  counter_reset_value : Nat
  register_target : Nat
  mode_prg : Bool
  mode_chr : Bool
  enable_interrupt : Bool
  should_reload_interrupt : Bool
deriving DecidableEq

/-- `MMC3::dump` in `WRITE` mode (`mapper.hpp` lines 330-343): the base
`Mapper::dump`, then `_tick` (uint32), `_registers` (eight uint32),
`_counter` and `_counter_reset_value` (uint16), `_register_target`
(uint8) and the four mode/interrupt booleans. -/
def MMC3Ser.dumpW (acc : List Nat) (m : MMC3Ser) : List Nat :=
  ((((((((m.core.dumpW acc ++ encLE 4 m.tick) ++
    (m.registers.map (encLE 4)).flatten) ++
    encLE 2 m.counter) ++
    encLE 2 m.counter_reset_value) ++
    encLE 1 m.register_target) ++
    [boolByte m.mode_prg]) ++
    [boolByte m.mode_chr]) ++
    [boolByte m.enable_interrupt]) ++
    [boolByte m.should_reload_interrupt]

/-- The full `MMC3::dump` output starting from an empty buffer. -/
def MMC3Ser.dumpWrite (m : MMC3Ser) : List Nat :=
  m.dumpW []

/-- The variant-specific tail of the MMC3 save-state segment. -/
def mmc3VariantSeg (m : MMC3Ser) : List Nat :=
  encLE 4 m.tick ++ (m.registers.map (encLE 4)).flatten ++
    encLE 2 m.counter ++ encLE 2 m.counter_reset_value ++
    encLE 1 m.register_target ++
    [boolByte m.mode_prg, boolByte m.mode_chr,
      boolByte m.enable_interrupt, boolByte m.should_reload_interrupt]

/-- `cynes::MirroringMode` (`mapper.hpp`). -/
inductive MirroringMode
  | NONE
  | ONE_SCREEN_LOW
  | ONE_SCREEN_HIGH
  | HORIZONTAL
  | VERTICAL
deriving DecidableEq

/-- The run-time state of an `MMC<BANK_SIZE>` mapper (`mapper.hpp` lines
362-458) together with the `Mapper` base state it builds on.  The bank
tables are total functions; only indices below 0x40 (CPU) and 0x10 (PPU)
are meaningful.  `memory` is the contiguous mapper memory
`[PRG | CHR | CPU-RAM | PPU-RAM]`; the `banks_*` fields count 1 KiB
(0x400-byte) banks in each region.  `bank_size` is the `BANK_SIZE`
template parameter (8 for MMC2, 16 for MMC4). -/
structure MMCState where
  bank_size : Nat
  banks_prg : Nat
  banks_chr : Nat
  banks_cpu_ram : Nat
  banks_ppu_ram : Nat
  read_only_chr : Bool
  memory : List Nat
  banks_cpu : Nat → MemoryBank
  banks_ppu : Nat → MemoryBank
  mirroring : MirroringMode
  latch0 : Bool
  latch1 : Bool
  sel0 : Nat
  sel1 : Nat
  sel2 : Nat
  sel3 : Nat

/-- Size in bytes of the PRG region (it starts at offset 0). -/
def MMCState.size_prg (s : MMCState) : Nat := s.banks_prg * 0x400

/-- Size in bytes of the CHR region (it follows PRG). -/
def MMCState.size_chr (s : MMCState) : Nat := s.banks_chr * 0x400

/-- Size in bytes of the CPU work RAM region (it follows CHR). -/
def MMCState.size_cpu_ram (s : MMCState) : Nat := s.banks_cpu_ram * 0x400

/-- Modelled from the spec: `Mapper::map_bank_chr(page, size, bank)`
(implemented in `mapper.cpp`, which is not under `src/`): points `size`
consecutive 1 KiB PPU pages starting at `page` at consecutive 1 KiB CHR
banks starting at bank index `bank`, wrapping modulo the CHR bank count;
the CHR region follows the PRG region in the mapper memory, and the
banks are read-only exactly when CHR is ROM. -/
def MMCState.map_bank_chr (s : MMCState) (page size bank : Nat) : MMCState :=
  { s with banks_ppu := fun i =>
      if page ≤ i ∧ i < page + size then
        { offset := s.size_prg + ((bank + (i - page)) % s.banks_chr) * 0x400
          read_only := s.read_only_chr
          mapped := true }
      else s.banks_ppu i }

/-- Modelled from the spec: `Mapper::map_bank_prg(page, size, bank)`
(`mapper.cpp`, not under `src/`): points `size` consecutive 1 KiB CPU
pages starting at `page` at consecutive 1 KiB PRG banks starting at bank
index `bank`, wrapping modulo the PRG bank count; PRG is read-only. -/
def MMCState.map_bank_prg (s : MMCState) (page size bank : Nat) : MMCState :=
  { s with banks_cpu := fun i =>
      if page ≤ i ∧ i < page + size then
        { offset := ((bank + (i - page)) % s.banks_prg) * 0x400
          read_only := true
          mapped := true }
      else s.banks_cpu i }

/-- Modelled from the spec: `Mapper::map_bank_cpu_ram(page, size, bank,
read_only)` (`mapper.cpp`, not under `src/`): points `size` consecutive
1 KiB CPU pages at consecutive 1 KiB banks of the CPU work RAM region,
which follows PRG and CHR in the mapper memory. -/
def MMCState.map_bank_cpu_ram
    (s : MMCState) (page size bank : Nat) (ro : Bool) : MMCState :=
  { s with banks_cpu := fun i =>
      if page ≤ i ∧ i < page + size then
        { offset := s.size_prg + s.size_chr +
            ((bank + (i - page)) % s.banks_cpu_ram) * 0x400
          read_only := ro
          mapped := true }
      else s.banks_cpu i }

/-- The bank entry for console PPU RAM nametable `n` (the PPU RAM region
sits at the end of the mapper memory). -/
def MMCState.nametableBank (s : MMCState) (n : Nat) : MemoryBank :=
  { offset := s.size_prg + s.size_chr + s.size_cpu_ram +
      (n % s.banks_ppu_ram) * 0x400
    read_only := false
    mapped := true }

/-- Modelled from the spec: `Mapper::set_mirroring_mode` (`mapper.cpp`,
not under `src/`): records the mirroring mode and points the nametable
PPU pages 0x8-0xF at one of the two 1 KiB nametables of the console PPU
RAM, per the mode; `NONE` leaves the nametable mapping untouched. -/
def MMCState.set_mirroring_mode (s : MMCState) (mode : MirroringMode) :
    MMCState :=
  { s with
      mirroring := mode
      banks_ppu := fun i =>
        if 0x8 ≤ i ∧ i < 0x10 then
          match mode with
          | MirroringMode.NONE => s.banks_ppu i
          | MirroringMode.ONE_SCREEN_LOW => s.nametableBank 0
          | MirroringMode.ONE_SCREEN_HIGH => s.nametableBank 1
          | MirroringMode.HORIZONTAL => s.nametableBank ((i - 0x8) % 4 / 2)
          | MirroringMode.VERTICAL => s.nametableBank ((i - 0x8) % 2)
        else s.banks_ppu i }

/-- Modelled from the spec: the base `Mapper::read_ppu` (`mapper.cpp`,
not under `src/`): translate address to bank to offset and read the
mapper memory; an unmapped bank reads as zero. -/
def MMCState.base_read_ppu (s : MMCState) (address : Nat) : Nat :=
  let b := s.banks_ppu (address / 0x400 % 0x10)
  if b.mapped then s.memory.getD (b.offset + address % 0x400) 0 else 0

/-- Modelled from the spec: the base `Mapper::write_cpu` (`mapper.cpp`,
not under `src/`): translate address to bank to offset and write the
mapper memory; writes to an unmapped or read-only bank are dropped. -/
def MMCState.base_write_cpu (s : MMCState) (address value : Nat) : MMCState :=
  let b := s.banks_cpu (address / 0x400 % 0x40)
  if b.mapped ∧ ¬b.read_only then
    { s with memory := s.memory.set (b.offset + address % 0x400) (value % 256) }
  else s

/-- Modelled from the spec: the base `Mapper::write_ppu` (`mapper.cpp`,
not under `src/`), analogous to `base_write_cpu` on the PPU banks. -/
def MMCState.base_write_ppu (s : MMCState) (address value : Nat) : MMCState :=
  let b := s.banks_ppu (address / 0x400 % 0x10)
  if b.mapped ∧ ¬b.read_only then
    { s with memory := s.memory.set (b.offset + address % 0x400) (value % 256) }
  else s

/-- `MMC::update_banks` (`mapper.hpp` lines 431-443): latch 0 selects
between CHR bank registers 0 and 1 for PPU pages 0x0-0x3, latch 1
between registers 2 and 3 for pages 0x4-0x7 (`<< 2` scales the 4 KiB
register value to 1 KiB banks). -/
def MMCState.update_banks (s : MMCState) : MMCState :=
  let s₁ :=
    if s.latch0 then s.map_bank_chr 0x0 0x4 (s.sel0 * 4)
    else s.map_bank_chr 0x0 0x4 (s.sel1 * 4)
  if s₁.latch1 then s₁.map_bank_chr 0x4 0x4 (s₁.sel2 * 4)
  else s₁.map_bank_chr 0x4 0x4 (s₁.sel3 * 4)

/-- `MMC::write_cpu` (`mapper.hpp` lines 387-407). -/
def MMCState.write_cpu (s : MMCState) (address value : Nat) : MMCState :=
  if address < 0xA000 then s.base_write_cpu address value
  else if address < 0xB000 then
    s.map_bank_prg 0x20 s.bank_size ((value % 0x10) * s.bank_size)
  else if address < 0xC000 then
    MMCState.update_banks { s with sel0 := value % 0x20 }
  else if address < 0xD000 then
    MMCState.update_banks { s with sel1 := value % 0x20 }
  else if address < 0xE000 then
    MMCState.update_banks { s with sel2 := value % 0x20 }
  else if address < 0xF000 then
    MMCState.update_banks { s with sel3 := value % 0x20 }
  else if value % 2 = 1 then s.set_mirroring_mode MirroringMode.HORIZONTAL
  else s.set_mirroring_mode MirroringMode.VERTICAL

/-- `MMC::read_ppu` (`mapper.hpp` lines 414-428): the value is fetched
through the base `Mapper::read_ppu` first; the latch updates and the
resulting bank remapping happen afterwards. -/
def MMCState.read_ppu (s : MMCState) (address : Nat) : Nat × MMCState :=
  let value := s.base_read_ppu address
  let t :=
    if address = 0x0FD8 then MMCState.update_banks { s with latch0 := true }
    else if address = 0x0FE8 then
      MMCState.update_banks { s with latch0 := false }
    else if 0x1FD8 ≤ address ∧ address < 0x1FE0 then
      MMCState.update_banks { s with latch1 := true }
    else if 0x1FE8 ≤ address ∧ address < 0x1FF0 then
      MMCState.update_banks { s with latch1 := false }
    else s
  (value, t)

/-- Modelled from the spec: the base `Mapper` constructor (`mapper.cpp`,
not under `src/`): it concatenates
`[PRG | CHR | 8 KiB CPU RAM | 2 KiB PPU RAM]` into one memory array and
starts with every bank unmapped (the mirroring mode is applied
separately). -/
def MMCState.mk_base (bank_size banks_prg banks_chr : Nat) (ro_chr : Bool)
    (mode : MirroringMode) (prg chr : List Nat) : MMCState :=
  { bank_size := bank_size
    banks_prg := banks_prg
    banks_chr := banks_chr
    banks_cpu_ram := 0x8
    banks_ppu_ram := 0x2
    read_only_chr := ro_chr
    memory := prg ++ chr ++ List.replicate (0x8 * 0x400) 0 ++
      List.replicate (0x2 * 0x400) 0
    banks_cpu := fun _ => ⟨0, false, false⟩
    banks_ppu := fun _ => ⟨0, false, false⟩
    mirroring := mode
    latch0 := false
    latch1 := false
    sel0 := 0
    sel1 := 0
    sel2 := 0
    sel3 := 0 }

/-- The `MMC<BANK_SIZE>` constructor (`mapper.hpp` lines 366-377) on top
of the base `Mapper` constructor: apply the mirroring mode, map the
whole CHR window, the switchable low PRG window, the fixed tail PRG
window, and the read-only CPU RAM window at `0x6000`. -/
def MMCState.init (bank_size banks_prg banks_chr : Nat) (ro_chr : Bool)
    (mode : MirroringMode) (prg chr : List Nat) : MMCState :=
  (((((MMCState.mk_base bank_size banks_prg banks_chr ro_chr mode prg
      chr).set_mirroring_mode mode).map_bank_chr 0x0 0x8
      0x0).map_bank_prg 0x20 bank_size 0x0).map_bank_prg
      (0x20 + bank_size) (0x20 - bank_size)
      (banks_prg - 0x20 + bank_size)).map_bank_cpu_ram 0x18 0x8 0x0 true

/-- The operations a caller can run against a mapper after construction
(`tick`, `write_cpu`, `write_ppu`, `read_ppu`; `Mapper::tick` and the
MMC `write_ppu` are the base no-op and the base memory write). -/
inductive MMCOp
  | write_cpu_op (address value : Nat)
  | write_ppu_op (address value : Nat)
  | read_ppu_op (address : Nat)
  | tick_op

/-- Run one operation against an MMC mapper state. -/
def MMCState.apply (s : MMCState) : MMCOp → MMCState
  | MMCOp.write_cpu_op a v => s.write_cpu a v
  | MMCOp.write_ppu_op a v => s.base_write_ppu a v
  | MMCOp.read_ppu_op a => (s.read_ppu a).2
  | MMCOp.tick_op => s

/-- Run a sequence of operations against an MMC mapper state. -/
def MMCState.applyAll (s : MMCState) (ops : List MMCOp) : MMCState :=
  ops.foldl MMCState.apply s

/-- Structural well-formedness of an MMC state: every region holds at
least one bank and the memory array concatenates the four regions. -/
def MMCState.SizesWF (s : MMCState) : Prop :=
  0 < s.banks_prg ∧ 0 < s.banks_chr ∧ 0 < s.banks_cpu_ram ∧
    0 < s.banks_ppu_ram ∧
    s.memory.length =
      (s.banks_prg + s.banks_chr + s.banks_cpu_ram + s.banks_ppu_ram) * 0x400

/-- The claimed bank-table invariant: every mapped entry of the two bank
tables points at a full 0x400-byte window inside the mapper memory. -/
def MMCState.BanksValid (s : MMCState) : Prop :=
  (∀ i < 0x40, (s.banks_cpu i).mapped →
    (s.banks_cpu i).offset + 0x400 ≤ s.memory.length) ∧
  (∀ i < 0x10, (s.banks_ppu i).mapped →
    (s.banks_ppu i).offset + 0x400 ≤ s.memory.length)

/-- The bank entry `update_banks` installs for CHR bank index `bank`. -/
def MMCState.chr_bank_entry (s : MMCState) (bank : Nat) : MemoryBank :=
  { offset := s.size_prg + (bank % s.banks_chr) * 0x400
    read_only := s.read_only_chr
    mapped := true }

/-- The bank entry `map_bank_prg` installs for PRG bank index `bank`. -/
def MMCState.prg_bank_entry (s : MMCState) (bank : Nat) : MemoryBank :=
  { offset := (bank % s.banks_prg) * 0x400
    read_only := true
    mapped := true }

/-- The descriptor of the NumPy frame view built by the `NesWrapper`
constructor (`wrapper.cpp` lines 11-24): shape, strides (in bytes) and
the writeable flag. -/
structure FrameView where
  shape : List Nat
  strides : List Nat
  writeable : Bool
deriving DecidableEq

/-- `cynes::wrapper::NesWrapper` (`wrapper.cpp`), generic over the state
`σ` of the wrapped `cynes::NES` core (whose sources are not under
`src/`). -/
structure NesWrapper (σ : Type) where
  controller : Nat
  nes : σ
  save_state_size : Nat
  frame : FrameView
  crashed : Bool

/-- The operations of the `cynes::NES` core consumed by the wrapper.
Modelled from the spec: `nes.hpp`/`nes.cpp` are not under `src/`; `step`
runs whole frames and reports whether the CPU has crashed (hit a `KIL`
opcode), `load` walks the dump tree in `READ` mode, `save` in `WRITE`
mode, `reset` re-initializes the chips, `write` drives the CPU bus write
path and `ram` exposes the 2 KiB internal RAM. -/
structure CoreOps (σ : Type) where
  size : σ → Nat
  step : σ → Nat → Nat → σ × Bool
  load : σ → List Nat → σ
  save : σ → List Nat
  reset : σ → σ
  write : σ → Nat → Nat → σ
  ram : σ → List Nat

/-- The `NesWrapper` constructor (`wrapper.cpp` lines 11-24): controller
zeroed, save-state size taken from the core, the frame view created with
shape `{240, 256, 3}` and strides `{256*3, 3, 1}` and then marked
non-writeable, and the crash flag cleared. -/
def NesWrapper.init {σ : Type} (C : CoreOps σ) (core : σ) : NesWrapper σ :=
  { controller := 0
    nes := core
    save_state_size := C.size core
    frame := { shape := [240, 256, 3], strides := [256 * 3, 3, 1],
               writeable := false }
    crashed := false }

/-- `NesWrapper::step` (`wrapper.cpp` lines 26-29): run the core, OR the
crash report into the latched flag, return the frame view. -/
def NesWrapper.step {σ : Type} (C : CoreOps σ) (w : NesWrapper σ)
    (frames : Nat) : NesWrapper σ × FrameView :=
  let r := C.step w.nes w.controller frames
  ({ w with nes := r.1, crashed := w.crashed || r.2 }, w.frame)

/-- `NesWrapper::load` (`wrapper.cpp` lines 37-40): hand the buffer to
the core and clear the crash flag.  The function performs no validation
of the buffer size. -/
def NesWrapper.load {σ : Type} (C : CoreOps σ) (w : NesWrapper σ)
    (buffer : List Nat) : NesWrapper σ :=
  { w with nes := C.load w.nes buffer, crashed := false }

/-- `NesWrapper::save` (`wrapper.cpp` lines 31-35). -/
def NesWrapper.save {σ : Type} (C : CoreOps σ) (w : NesWrapper σ) :
    List Nat :=
  C.save w.nes

/-- `NesWrapper::read_all_ram` (`wrapper.cpp` lines 42-56): a view of the
core's 2 KiB RAM. -/
def NesWrapper.read_all_ram {σ : Type} (C : CoreOps σ) (w : NesWrapper σ) :
    List Nat :=
  C.ram w.nes

/-- Modelled from the spec: `NesWrapper::reset` (declared in
`wrapper.hpp`, which is not under `src/`): sends the reset signal to the
core; the crash latch is cleared (the spec keeps `has_crashed` true only
until `reset` or `load`). -/
def NesWrapper.reset {σ : Type} (C : CoreOps σ) (w : NesWrapper σ) :
    NesWrapper σ :=
  { w with nes := C.reset w.nes, crashed := false }

/-- Modelled from the spec: `NesWrapper::write` (declared in
`wrapper.hpp`, not under `src/`): drives the CPU bus write path of the
core. -/
def NesWrapper.write {σ : Type} (C : CoreOps σ) (w : NesWrapper σ)
    (address value : Nat) : NesWrapper σ :=
  { w with nes := C.write w.nes address value }

/-- The wrapper operations a Python caller can run on a handle. -/
inductive WOp
  | step_op (frames : Nat)
  | load_op (buffer : List Nat)
  | reset_op
  | write_op (address value : Nat)
  | save_op
  | ram_op
  | controller_op (value : Nat)

/-- Whether an operation is one of the two that clear the crash flag. -/
def WOp.clears_crash : WOp → Bool
  | WOp.load_op _ => true
  | WOp.reset_op => true
  | _ => false

/-- Run one wrapper operation (`save` and `get_all_ram` return data but
do not change the wrapper state). -/
def NesWrapper.apply {σ : Type} (C : CoreOps σ) (w : NesWrapper σ) :
    WOp → NesWrapper σ
  | WOp.step_op n => (w.step C n).1
  | WOp.load_op b => w.load C b
  | WOp.reset_op => w.reset C
  | WOp.write_op a v => w.write C a v
  | WOp.save_op => w
  | WOp.ram_op => w
  | WOp.controller_op v => { w with controller := v }

/-- Run a sequence of wrapper operations. -/
def NesWrapper.applyAll {σ : Type} (C : CoreOps σ) (w : NesWrapper σ)
    (ops : List WOp) : NesWrapper σ :=
  ops.foldl (NesWrapper.apply C) w

/-- Modelled from the spec: the slice of the `cynes::NES` core state
these claims need (`nes.cpp` is not under `src/`): the 2 KiB internal
CPU RAM. -/
structure NesCore where
  ram : List Nat
deriving DecidableEq

/-- Modelled from the spec: the CPU bus write path — addresses
`0x0000-0x1FFF` hit the 2 KiB internal RAM mirrored every `0x800`;
other targets are outside this model. -/
def NesCore.cpu_write (c : NesCore) (address value : Nat) : NesCore :=
  if address < 0x2000 then
    { c with ram := c.ram.set (address % 0x800) (value % 256) }
  else c

/-- Modelled from the spec: `NES::load` walks the dump tree in `READ`
mode, replacing the mutable state bytes with the buffer contents (only
the RAM slice is modelled; a buffer shorter than the state reads past
its end in the C++, modelled here by keeping the old tail). -/
def NesCore.core_load (c : NesCore) (buffer : List Nat) : NesCore :=
  { ram := (buffer ++ c.ram.drop buffer.length).take c.ram.length }

/-- The `CoreOps` instance for the modelled core.  CPU execution is out
of scope of this model, so `step` reports no crash; the claims about the
crash latch are stated against arbitrary `CoreOps`. -/
def nesCoreOps : CoreOps NesCore :=
  { size := fun c => c.ram.length
    step := fun c _ _ => (c, false)
    load := NesCore.core_load
    save := fun c => c.ram
    reset := fun c => c
    write := NesCore.cpu_write
    ram := fun c => c.ram }

/-- A concrete MMC2-shaped mapper state (128 KiB PRG, 128 KiB CHR)
used to witness the MMC theorems. -/
def mmcTest : MMCState :=
  { bank_size := 8
    banks_prg := 0x80
    banks_chr := 0x80
    banks_cpu_ram := 0x8
    banks_ppu_ram := 0x2
    read_only_chr := true
    memory := []
    banks_cpu := fun _ => ⟨0, false, false⟩
    banks_ppu := fun _ => ⟨0, false, false⟩
    mirroring := MirroringMode.VERTICAL
    latch0 := false
    latch1 := true
    sel0 := 1
    sel1 := 2
    sel2 := 3
    sel3 := 4 }

/-- A trivial core used to witness the wrapper theorems that hold for
every core: its `step` always reports a crash. -/
def unitCoreOps : CoreOps Unit :=
  { size := fun _ => 0
    step := fun _ _ _ => ((), true)
    load := fun c _ => c
    save := fun _ => []
    reset := fun c => c
    write := fun c _ _ => c
    ram := fun _ => [] }

/-- A concrete wrapper state whose crash flag is latched. -/
def wCrashed : NesWrapper Unit :=
  { controller := 0
    nes := ()
    save_state_size := 0
    frame := ⟨[240, 256, 3], [256 * 3, 3, 1], false⟩
    crashed := true }

/-- A concrete modelled core with its 2 KiB RAM zeroed. -/
def coreTest : NesCore := ⟨List.replicate 2048 0⟩

/-- A freshly constructed wrapper over `coreTest`. -/
def wRam : NesWrapper NesCore := NesWrapper.init nesCoreOps coreTest

/-- A concrete handle used against claim C2: its expected save-state
size is 2048 bytes and its crash flag is latched. -/
def c2Handle : NesWrapper NesCore :=
  { controller := 0
    nes := coreTest
    save_state_size := 2048
    frame := ⟨[240, 256, 3], [256 * 3, 3, 1], false⟩
    crashed := true }

/-! ## Helper lemmas -/

theorem encLE_length (k n : Nat) : (encLE k n).length = k := by
  induction k generalizing n with
  | zero => rfl
  | succ k ih => simp [encLE, ih]

theorem decLEtake_enc (k n : Nat) (r : List Nat) :
    decLEtake k (encLE k n ++ r) = (n % 256 ^ k, r) := by
  induction k generalizing n with
  | zero => simp [encLE, decLEtake, Nat.mod_one]
  | succ k ih =>
    have hpow : (256 : Nat) ^ (k + 1) = 256 * 256 ^ k := by
      rw [pow_succ, Nat.mul_comm]
    simp only [encLE, List.cons_append, decLEtake, List.append_eq, ih]
    rw [hpow, Nat.mod_mul]

theorem decBoolTake_enc (b : Bool) (r : List Nat) :
    decBoolTake (boolByte b :: r) = (b, r) := by
  cases b <;> simp [decBoolTake, boolByte]

theorem MemoryBank.decTake_enc (b : MemoryBank) (r : List Nat)
    (h : b.offset < 2 ^ 64) :
    MemoryBank.decTake (b.enc ++ r) = (b, r) := by
  have h₂ : b.offset % 256 ^ 8 = b.offset := by
    apply Nat.mod_eq_of_lt
    calc b.offset < 2 ^ 64 := h
    _ ≤ 256 ^ 8 := by norm_num
  simp only [MemoryBank.decTake, MemoryBank.enc, List.append_assoc,
    List.cons_append, decLEtake_enc, decBoolTake_enc, h₂]
  simp

theorem decBanks_enc (l : List MemoryBank) (r : List Nat)
    (h : ∀ b ∈ l, b.offset < 2 ^ 64) :
    decBanks l.length ((l.map MemoryBank.enc).flatten ++ r) = (l, r) := by
  induction l with
  | nil => simp [decBanks]
  | cons b t ih =>
    have hb : b.offset < 2 ^ 64 := h b (List.mem_cons_self b t)
    have ht : ∀ x ∈ t, x.offset < 2 ^ 64 := fun x hx =>
      h x (List.mem_cons_of_mem b hx)
    simp only [List.length_cons, List.map_cons, List.flatten_cons,
      List.append_assoc, decBanks, MemoryBank.decTake_enc b _ hb, ih ht]

theorem MemoryBank.dumpW_enc (acc : List Nat) (b : MemoryBank) :
    MemoryBank.dumpW acc b = acc ++ b.enc := by
  simp [MemoryBank.dumpW, MemoryBank.enc]

theorem foldl_dumpW (l : List MemoryBank) (acc : List Nat) :
    l.foldl MemoryBank.dumpW acc = acc ++ (l.map MemoryBank.enc).flatten := by
  induction l generalizing acc with
  | nil => simp
  | cons b t ih =>
    simp [List.foldl_cons, MemoryBank.dumpW_enc, ih]

theorem MapperState.dumpW_eq (s : MapperState) (acc : List Nat) :
    s.dumpW acc =
      acc ++ (cpuBanksSeg s ++ ppuBanksSeg s ++ chrSeg s ++
        cpuRamSeg s ++ ppuRamSeg s) := by
  unfold MapperState.dumpW
  simp only [foldl_dumpW, cpuBanksSeg, ppuBanksSeg, chrSeg, cpuRamSeg,
    ppuRamSeg]
  by_cases h₁ : s.read_only_chr <;>
    by_cases h₂ : s.mem_cpu_ram.length ≠ 0 <;>
      by_cases h₃ : s.mem_ppu_ram.length ≠ 0 <;>
        simp [h₁, h₂, h₃]

theorem MapperState.dumpRead_dumpWrite (s : MapperState) (h : s.WF) :
    s.dumpRead s.dumpWrite = (s, []) := by
  obtain ⟨hc, hp, hco, hpo⟩ := h
  have hA : ∀ X : List Nat,
      decBanks 0x40 ((s.banks_cpu.map MemoryBank.enc).flatten ++ X) =
        (s.banks_cpu, X) := fun X => by
    rw [← hc]
    exact decBanks_enc _ _ hco
  have hB : ∀ X : List Nat,
      decBanks 0x10 ((s.banks_ppu.map MemoryBank.enc).flatten ++ X) =
        (s.banks_ppu, X) := fun X => by
    rw [← hp]
    exact decBanks_enc _ _ hpo
  have hwrite : s.dumpWrite =
      (s.banks_cpu.map MemoryBank.enc).flatten ++
        ((s.banks_ppu.map MemoryBank.enc).flatten ++
          (chrSeg s ++ (cpuRamSeg s ++ ppuRamSeg s))) := by
    simp [MapperState.dumpWrite, MapperState.dumpW_eq, cpuBanksSeg,
      ppuBanksSeg]
  simp only [MapperState.dumpRead, hwrite, hA, hB]
  obtain ⟨ro, bc, bp, mc, mcr, mpr⟩ := s
  by_cases h₁ : ro <;>
    by_cases h₂ : mcr.length ≠ 0 <;>
      by_cases h₃ : mpr.length ≠ 0 <;>
        simp_all [chrSeg, cpuRamSeg, ppuRamSeg, List.take_left,
          List.drop_left]

theorem MMCState.update_banks_latches (s : MMCState) :
    s.update_banks.latch0 = s.latch0 ∧ s.update_banks.latch1 = s.latch1 := by
  unfold MMCState.update_banks MMCState.map_bank_chr
  by_cases h₀ : s.latch0 <;> by_cases h₁ : s.latch1 <;> simp [h₀, h₁]

theorem MMCState.update_banks_sel (s : MMCState) :
    s.update_banks.sel0 = s.sel0 ∧ s.update_banks.sel1 = s.sel1 ∧
      s.update_banks.sel2 = s.sel2 ∧ s.update_banks.sel3 = s.sel3 := by
  unfold MMCState.update_banks MMCState.map_bank_chr
  by_cases h₀ : s.latch0 <;> by_cases h₁ : s.latch1 <;> simp [h₀, h₁]

theorem MMCState.update_banks_ppu_low (s : MMCState) (p : Nat) (hp : p < 4) :
    s.update_banks.banks_ppu p =
      s.chr_bank_entry ((if s.latch0 then s.sel0 else s.sel1) * 4 + p) := by
  have hno : ¬(4 ≤ p ∧ p < 4 + 4) := by omega
  have hyes : 0 ≤ p ∧ p < 0 + 4 := by omega
  unfold MMCState.update_banks MMCState.map_bank_chr MMCState.chr_bank_entry
  by_cases h₀ : s.latch0 <;> by_cases h₁ : s.latch1 <;>
    simp [h₀, h₁, hno, hyes, MMCState.size_prg]

theorem MMCState.update_banks_ppu_high (s : MMCState) (p : Nat) (hp : p < 4) :
    s.update_banks.banks_ppu (4 + p) =
      s.chr_bank_entry ((if s.latch1 then s.sel2 else s.sel3) * 4 + p) := by
  have hyes : 4 ≤ 4 + p ∧ 4 + p < 4 + 4 := by omega
  unfold MMCState.update_banks MMCState.map_bank_chr MMCState.chr_bank_entry
  by_cases h₀ : s.latch0 <;> by_cases h₁ : s.latch1 <;>
    simp [h₀, h₁, hyes, MMCState.size_prg]

theorem MMCState.read_ppu_snd_fd8 (s : MMCState) :
    (s.read_ppu 0x0FD8).2 = MMCState.update_banks { s with latch0 := true } := by
  simp [MMCState.read_ppu]

theorem MMCState.read_ppu_snd_fe8 (s : MMCState) :
    (s.read_ppu 0x0FE8).2 =
      MMCState.update_banks { s with latch0 := false } := by
  simp [MMCState.read_ppu]

theorem MMCState.read_ppu_snd_latch1_set (s : MMCState) (a : Nat)
    (h₁ : 0x1FD8 ≤ a) (h₂ : a < 0x1FE0) :
    (s.read_ppu a).2 = MMCState.update_banks { s with latch1 := true } := by
  have hne₁ : ¬a = 0x0FD8 := by omega
  have hne₂ : ¬a = 0x0FE8 := by omega
  simp [MMCState.read_ppu, hne₁, hne₂, h₁, h₂]

theorem MMCState.read_ppu_snd_latch1_clear (s : MMCState) (a : Nat)
    (h₁ : 0x1FE8 ≤ a) (h₂ : a < 0x1FF0) :
    (s.read_ppu a).2 =
      MMCState.update_banks { s with latch1 := false } := by
  have hne₁ : ¬a = 0x0FD8 := by omega
  have hne₂ : ¬a = 0x0FE8 := by omega
  have hno₃ : ¬(0x1FD8 ≤ a ∧ a < 0x1FE0) := by omega
  simp [MMCState.read_ppu, hne₁, hne₂, hno₃, h₁, h₂]

theorem MMCState.update_banks_dims (s : MMCState) :
    s.update_banks.banks_prg = s.banks_prg ∧
      s.update_banks.banks_chr = s.banks_chr ∧
      s.update_banks.banks_cpu_ram = s.banks_cpu_ram ∧
      s.update_banks.banks_ppu_ram = s.banks_ppu_ram ∧
      s.update_banks.memory.length = s.memory.length := by
  unfold MMCState.update_banks MMCState.map_bank_chr
  by_cases h₀ : s.latch0 <;> by_cases h₁ : s.latch1 <;> simp [h₀, h₁]

theorem MMCState.write_cpu_dims (s : MMCState) (a v : Nat) :
    (s.write_cpu a v).banks_prg = s.banks_prg ∧
      (s.write_cpu a v).banks_chr = s.banks_chr ∧
      (s.write_cpu a v).banks_cpu_ram = s.banks_cpu_ram ∧
      (s.write_cpu a v).banks_ppu_ram = s.banks_ppu_ram ∧
      (s.write_cpu a v).memory.length = s.memory.length := by
  unfold MMCState.write_cpu
  split_ifs with h₁ h₂ h₃ h₄ h₅ h₆ h₇
  · unfold MMCState.base_write_cpu
    dsimp only
    split_ifs <;> simp [List.length_set]
  · exact ⟨rfl, rfl, rfl, rfl, rfl⟩
  · exact MMCState.update_banks_dims { s with sel0 := v % 0x20 }
  · exact MMCState.update_banks_dims { s with sel1 := v % 0x20 }
  · exact MMCState.update_banks_dims { s with sel2 := v % 0x20 }
  · exact MMCState.update_banks_dims { s with sel3 := v % 0x20 }
  · exact ⟨rfl, rfl, rfl, rfl, rfl⟩
  · exact ⟨rfl, rfl, rfl, rfl, rfl⟩

theorem MMCState.base_write_ppu_dims (s : MMCState) (a v : Nat) :
    (s.base_write_ppu a v).banks_prg = s.banks_prg ∧
      (s.base_write_ppu a v).banks_chr = s.banks_chr ∧
      (s.base_write_ppu a v).banks_cpu_ram = s.banks_cpu_ram ∧
      (s.base_write_ppu a v).banks_ppu_ram = s.banks_ppu_ram ∧
      (s.base_write_ppu a v).memory.length = s.memory.length := by
  unfold MMCState.base_write_ppu
  dsimp only
  split_ifs <;> simp [List.length_set]

theorem MMCState.read_ppu_dims (s : MMCState) (a : Nat) :
    (s.read_ppu a).2.banks_prg = s.banks_prg ∧
      (s.read_ppu a).2.banks_chr = s.banks_chr ∧
      (s.read_ppu a).2.banks_cpu_ram = s.banks_cpu_ram ∧
      (s.read_ppu a).2.banks_ppu_ram = s.banks_ppu_ram ∧
      (s.read_ppu a).2.memory.length = s.memory.length := by
  unfold MMCState.read_ppu
  dsimp only
  split_ifs with h₁ h₂ h₃ h₄
  · obtain ⟨d₁, d₂, d₃, d₄, d₅⟩ :=
      MMCState.update_banks_dims { s with latch0 := true }
    exact ⟨d₁.trans rfl, d₂.trans rfl, d₃.trans rfl, d₄.trans rfl,
      d₅.trans rfl⟩
  · obtain ⟨d₁, d₂, d₃, d₄, d₅⟩ :=
      MMCState.update_banks_dims { s with latch0 := false }
    exact ⟨d₁.trans rfl, d₂.trans rfl, d₃.trans rfl, d₄.trans rfl,
      d₅.trans rfl⟩
  · obtain ⟨d₁, d₂, d₃, d₄, d₅⟩ :=
      MMCState.update_banks_dims { s with latch1 := true }
    exact ⟨d₁.trans rfl, d₂.trans rfl, d₃.trans rfl, d₄.trans rfl,
      d₅.trans rfl⟩
  · obtain ⟨d₁, d₂, d₃, d₄, d₅⟩ :=
      MMCState.update_banks_dims { s with latch1 := false }
    exact ⟨d₁.trans rfl, d₂.trans rfl, d₃.trans rfl, d₄.trans rfl,
      d₅.trans rfl⟩
  · exact ⟨rfl, rfl, rfl, rfl, rfl⟩

theorem MMCState.apply_dims (s : MMCState) (op : MMCOp) :
    (s.apply op).banks_prg = s.banks_prg ∧
      (s.apply op).banks_chr = s.banks_chr ∧
      (s.apply op).banks_cpu_ram = s.banks_cpu_ram ∧
      (s.apply op).banks_ppu_ram = s.banks_ppu_ram ∧
      (s.apply op).memory.length = s.memory.length := by
  cases op with
  | write_cpu_op a v => exact s.write_cpu_dims a v
  | write_ppu_op a v => exact s.base_write_ppu_dims a v
  | read_ppu_op a => exact s.read_ppu_dims a
  | tick_op => exact ⟨rfl, rfl, rfl, rfl, rfl⟩

theorem MMCState.apply_sizes_wf (s : MMCState) (op : MMCOp)
    (hs : s.SizesWF) : (s.apply op).SizesWF := by
  obtain ⟨h₁, h₂, h₃, h₄, h₅⟩ := s.apply_dims op
  unfold MMCState.SizesWF at hs ⊢
  rw [h₁, h₂, h₃, h₄, h₅]
  exact hs

theorem MMCState.map_bank_chr_valid (s : MMCState) (page n bank : Nat)
    (hs : s.SizesWF) (hv : s.BanksValid) :
    (s.map_bank_chr page n bank).BanksValid := by
  obtain ⟨hp, hc, hu, hr, hm⟩ := hs
  obtain ⟨hvc, hvp⟩ := hv
  refine ⟨fun i hi hmp => hvc i hi hmp, fun i hi hmp => ?_⟩
  show ((s.map_bank_chr page n bank).banks_ppu i).offset + 0x400 ≤
    s.memory.length
  unfold MMCState.map_bank_chr
  by_cases h : page ≤ i ∧ i < page + n
  · have hlt : (bank + (i - page)) % s.banks_chr < s.banks_chr :=
      Nat.mod_lt _ hc
    simp only [h, and_self, if_true]
    unfold MMCState.size_prg at *
    omega
  · simp only [h, if_false]
    exact hvp i hi (by simpa [MMCState.map_bank_chr, h] using hmp)

theorem MMCState.map_bank_prg_valid (s : MMCState) (page n bank : Nat)
    (hs : s.SizesWF) (hv : s.BanksValid) :
    (s.map_bank_prg page n bank).BanksValid := by
  obtain ⟨hp, hc, hu, hr, hm⟩ := hs
  obtain ⟨hvc, hvp⟩ := hv
  refine ⟨fun i hi hmp => ?_, fun i hi hmp => hvp i hi hmp⟩
  show ((s.map_bank_prg page n bank).banks_cpu i).offset + 0x400 ≤
    s.memory.length
  unfold MMCState.map_bank_prg
  by_cases h : page ≤ i ∧ i < page + n
  · have hlt : (bank + (i - page)) % s.banks_prg < s.banks_prg :=
      Nat.mod_lt _ hp
    simp only [h, and_self, if_true]
    omega
  · simp only [h, if_false]
    exact hvc i hi (by simpa [MMCState.map_bank_prg, h] using hmp)

theorem MMCState.map_bank_cpu_ram_valid (s : MMCState) (page n bank : Nat)
    (ro : Bool) (hs : s.SizesWF) (hv : s.BanksValid) :
    (s.map_bank_cpu_ram page n bank ro).BanksValid := by
  obtain ⟨hp, hc, hu, hr, hm⟩ := hs
  obtain ⟨hvc, hvp⟩ := hv
  refine ⟨fun i hi hmp => ?_, fun i hi hmp => hvp i hi hmp⟩
  show ((s.map_bank_cpu_ram page n bank ro).banks_cpu i).offset + 0x400 ≤
    s.memory.length
  unfold MMCState.map_bank_cpu_ram
  by_cases h : page ≤ i ∧ i < page + n
  · have hlt : (bank + (i - page)) % s.banks_cpu_ram < s.banks_cpu_ram :=
      Nat.mod_lt _ hu
    simp only [h, and_self, if_true]
    unfold MMCState.size_prg MMCState.size_chr at *
    omega
  · simp only [h, if_false]
    exact hvc i hi (by simpa [MMCState.map_bank_cpu_ram, h] using hmp)

theorem MMCState.set_mirroring_mode_valid (s : MMCState)
    (mode : MirroringMode) (hs : s.SizesWF) (hv : s.BanksValid) :
    (s.set_mirroring_mode mode).BanksValid := by
  obtain ⟨hp, hc, hu, hr, hm⟩ := hs
  obtain ⟨hvc, hvp⟩ := hv
  refine ⟨fun i hi hmp => hvc i hi hmp, fun i hi hmp => ?_⟩
  show ((s.set_mirroring_mode mode).banks_ppu i).offset + 0x400 ≤
    s.memory.length
  have hnt : ∀ n : Nat, (s.nametableBank n).offset + 0x400 ≤
      s.memory.length := by
    intro n
    have hlt : n % s.banks_ppu_ram < s.banks_ppu_ram := Nat.mod_lt _ hr
    unfold MMCState.nametableBank MMCState.size_prg MMCState.size_chr
      MMCState.size_cpu_ram
    simp only
    omega
  unfold MMCState.set_mirroring_mode
  by_cases h : 0x8 ≤ i ∧ i < 0x10
  · simp only [h, and_self, if_true]
    cases mode with
    | NONE =>
      exact hvp i hi
        (by simpa [MMCState.set_mirroring_mode, h] using hmp)
    | ONE_SCREEN_LOW => exact hnt 0
    | ONE_SCREEN_HIGH => exact hnt 1
    | HORIZONTAL => exact hnt _
    | VERTICAL => exact hnt _
  · simp only [h, if_false]
    exact hvp i hi
      (by simpa [MMCState.set_mirroring_mode, h] using hmp)

theorem MMCState.map_bank_chr_sizes (s : MMCState) (page n bank : Nat)
    (hs : s.SizesWF) : (s.map_bank_chr page n bank).SizesWF := hs

theorem MMCState.map_bank_chr_latch1 (s : MMCState) (page n bank : Nat) :
    (s.map_bank_chr page n bank).latch1 = s.latch1 := rfl

theorem MMCState.update_banks_valid (s : MMCState) (hs : s.SizesWF)
    (hv : s.BanksValid) : s.update_banks.BanksValid := by
  unfold MMCState.update_banks
  by_cases h₀ : s.latch0 <;> by_cases h₁ : s.latch1 <;>
    simp only [h₀, h₁, if_true, if_false, MMCState.map_bank_chr_latch1,
      Bool.false_eq_true, Bool.true_eq_false, iff_false, iff_true,
      not_true, not_false_iff] <;>
    exact MMCState.map_bank_chr_valid _ _ _ _
      (MMCState.map_bank_chr_sizes _ _ _ _ hs)
      (MMCState.map_bank_chr_valid _ _ _ _ hs hv)

theorem MMCState.base_write_cpu_valid (s : MMCState) (a v : Nat)
    (hv : s.BanksValid) : (s.base_write_cpu a v).BanksValid := by
  obtain ⟨hvc, hvp⟩ := hv
  unfold MMCState.base_write_cpu
  dsimp only
  split_ifs with h
  · exact ⟨fun i hi hmp => by
        simpa [List.length_set] using hvc i hi hmp,
      fun i hi hmp => by
        simpa [List.length_set] using hvp i hi hmp⟩
  · exact ⟨hvc, hvp⟩

theorem MMCState.base_write_ppu_valid (s : MMCState) (a v : Nat)
    (hv : s.BanksValid) : (s.base_write_ppu a v).BanksValid := by
  obtain ⟨hvc, hvp⟩ := hv
  unfold MMCState.base_write_ppu
  dsimp only
  split_ifs with h
  · exact ⟨fun i hi hmp => by
        simpa [List.length_set] using hvc i hi hmp,
      fun i hi hmp => by
        simpa [List.length_set] using hvp i hi hmp⟩
  · exact ⟨hvc, hvp⟩

theorem MMCState.write_cpu_valid (s : MMCState) (a v : Nat)
    (hs : s.SizesWF) (hv : s.BanksValid) :
    (s.write_cpu a v).BanksValid := by
  unfold MMCState.write_cpu
  split_ifs with h₁ h₂ h₃ h₄ h₅ h₆ h₇
  · exact s.base_write_cpu_valid a v hv
  · exact MMCState.map_bank_prg_valid _ _ _ _ hs hv
  · exact MMCState.update_banks_valid _ hs hv
  · exact MMCState.update_banks_valid _ hs hv
  · exact MMCState.update_banks_valid _ hs hv
  · exact MMCState.update_banks_valid _ hs hv
  · exact MMCState.set_mirroring_mode_valid _ _ hs hv
  · exact MMCState.set_mirroring_mode_valid _ _ hs hv

theorem MMCState.read_ppu_valid (s : MMCState) (a : Nat) (hs : s.SizesWF)
    (hv : s.BanksValid) : (s.read_ppu a).2.BanksValid := by
  unfold MMCState.read_ppu
  dsimp only
  split_ifs with h₁ h₂ h₃ h₄
  · exact MMCState.update_banks_valid _ hs hv
  · exact MMCState.update_banks_valid _ hs hv
  · exact MMCState.update_banks_valid _ hs hv
  · exact MMCState.update_banks_valid _ hs hv
  · exact hv

theorem MMCState.apply_valid (s : MMCState) (op : MMCOp) (hs : s.SizesWF)
    (hv : s.BanksValid) : (s.apply op).BanksValid := by
  cases op with
  | write_cpu_op a v => exact s.write_cpu_valid a v hs hv
  | write_ppu_op a v => exact s.base_write_ppu_valid a v hv
  | read_ppu_op a => exact s.read_ppu_valid a hs hv
  | tick_op => exact hv

theorem MMCState.applyAll_valid (s : MMCState) (ops : List MMCOp)
    (hs : s.SizesWF) (hv : s.BanksValid) :
    (s.applyAll ops).BanksValid := by
  induction ops generalizing s with
  | nil => exact hv
  | cons op t ih =>
    exact ih (s.apply op) (s.apply_sizes_wf op hs) (s.apply_valid op hs hv)

theorem MMCState.mk_base_sizes_wf (bank_size banks_prg banks_chr : Nat)
    (ro : Bool) (mode : MirroringMode) (prg chr : List Nat)
    (hprg : prg.length = banks_prg * 0x400)
    (hchr : chr.length = banks_chr * 0x400)
    (h₁ : 0 < banks_prg) (h₂ : 0 < banks_chr) :
    (MMCState.mk_base bank_size banks_prg banks_chr ro mode prg
      chr).SizesWF := by
  unfold MMCState.mk_base MMCState.SizesWF
  refine ⟨h₁, h₂, by norm_num, by norm_num, ?_⟩
  dsimp only
  rw [List.length_append, List.length_append, List.length_append,
    List.length_replicate, List.length_replicate, hprg, hchr]
  ring

theorem MMCState.mk_base_valid (bank_size banks_prg banks_chr : Nat)
    (ro : Bool) (mode : MirroringMode) (prg chr : List Nat) :
    (MMCState.mk_base bank_size banks_prg banks_chr ro mode prg
      chr).BanksValid := by
  unfold MMCState.mk_base MMCState.BanksValid
  exact ⟨fun i _ hmp => by simp at hmp, fun i _ hmp => by simp at hmp⟩

theorem MMCState.set_mirroring_mode_sizes (s : MMCState)
    (mode : MirroringMode) (hs : s.SizesWF) :
    (s.set_mirroring_mode mode).SizesWF := hs

theorem MMCState.map_bank_prg_sizes (s : MMCState) (page n bank : Nat)
    (hs : s.SizesWF) : (s.map_bank_prg page n bank).SizesWF := hs

theorem MMCState.map_bank_cpu_ram_sizes (s : MMCState) (page n bank : Nat)
    (ro : Bool) (hs : s.SizesWF) :
    (s.map_bank_cpu_ram page n bank ro).SizesWF := hs

theorem MMCState.init_sizes_wf (bank_size banks_prg banks_chr : Nat)
    (ro : Bool) (mode : MirroringMode) (prg chr : List Nat)
    (hprg : prg.length = banks_prg * 0x400)
    (hchr : chr.length = banks_chr * 0x400)
    (h₁ : 0 < banks_prg) (h₂ : 0 < banks_chr) :
    (MMCState.init bank_size banks_prg banks_chr ro mode prg
      chr).SizesWF :=
  MMCState.map_bank_cpu_ram_sizes _ _ _ _ _
    (MMCState.map_bank_prg_sizes _ _ _ _
      (MMCState.map_bank_prg_sizes _ _ _ _
        (MMCState.map_bank_chr_sizes _ _ _ _
          (MMCState.set_mirroring_mode_sizes _ _
            (MMCState.mk_base_sizes_wf bank_size banks_prg banks_chr ro
              mode prg chr hprg hchr h₁ h₂)))))

theorem MMCState.init_valid (bank_size banks_prg banks_chr : Nat)
    (ro : Bool) (mode : MirroringMode) (prg chr : List Nat)
    (hprg : prg.length = banks_prg * 0x400)
    (hchr : chr.length = banks_chr * 0x400)
    (h₁ : 0 < banks_prg) (h₂ : 0 < banks_chr) :
    (MMCState.init bank_size banks_prg banks_chr ro mode prg
      chr).BanksValid := by
  have hs0 := MMCState.mk_base_sizes_wf bank_size banks_prg banks_chr ro
    mode prg chr hprg hchr h₁ h₂
  have hv0 := MMCState.mk_base_valid bank_size banks_prg banks_chr ro
    mode prg chr
  have hs1 := MMCState.set_mirroring_mode_sizes _ mode hs0
  have hv1 := MMCState.set_mirroring_mode_valid _ mode hs0 hv0
  have hs2 := MMCState.map_bank_chr_sizes _ 0x0 0x8 0x0 hs1
  have hv2 := MMCState.map_bank_chr_valid _ 0x0 0x8 0x0 hs1 hv1
  have hs3 := MMCState.map_bank_prg_sizes _ 0x20 bank_size 0x0 hs2
  have hv3 := MMCState.map_bank_prg_valid _ 0x20 bank_size 0x0 hs2 hv2
  have hs4 := MMCState.map_bank_prg_sizes _ (0x20 + bank_size)
    (0x20 - bank_size) (banks_prg - 0x20 + bank_size) hs3
  have hv4 := MMCState.map_bank_prg_valid _ (0x20 + bank_size)
    (0x20 - bank_size) (banks_prg - 0x20 + bank_size) hs3 hv3
  exact MMCState.map_bank_cpu_ram_valid _ 0x18 0x8 0x0 true hs4 hv4

/-! ## Claim theorems -/

/-- C1.  For every well-formed mapper state, running the dump walk in
`WRITE` mode, then running the same walk in `READ` mode from that
buffer, then running `WRITE` mode again produces a byte-identical
buffer: save followed by load followed by save is the identity on the
serialized bytes. -/
theorem claim1_save_load_save_identity (s : MapperState) (h : s.WF) :
    MapperState.dumpWrite (MapperState.dumpRead s.dumpWrite s).1 =
      MapperState.dumpWrite s := by
  rw [s.dumpRead_dumpWrite h]

/-- Witness for C1 at a concrete mapper state. -/
theorem claim1_witness :
    (MapperState.mk true (List.replicate 0x40 ⟨3, true, true⟩)
        (List.replicate 0x10 ⟨5, false, true⟩) [1, 2] [7] []).WF ∧
      MapperState.dumpWrite
        (MapperState.dumpRead
          (MapperState.mk true (List.replicate 0x40 ⟨3, true, true⟩)
            (List.replicate 0x10 ⟨5, false, true⟩) [1, 2] [7] []).dumpWrite
          (MapperState.mk true (List.replicate 0x40 ⟨3, true, true⟩)
            (List.replicate 0x10 ⟨5, false, true⟩) [1, 2] [7] [])).1 =
      MapperState.dumpWrite
        (MapperState.mk true (List.replicate 0x40 ⟨3, true, true⟩)
          (List.replicate 0x10 ⟨5, false, true⟩) [1, 2] [7] []) :=
  ⟨by decide, claim1_save_load_save_identity _ (by decide)⟩

/-- C9.  The mapper's save-state segment consists, in this order, of the
64 CPU bank entries, the 16 PPU bank entries, the CHR region (present
exactly when CHR is RAM), the CPU work RAM (when present), the PPU work
RAM (when present), and then the variant-specific fields of the concrete
mapper (shown for `MMC::dump` and `MMC3::dump`). -/
theorem claim9_dump_layout (s : MapperState) (m : MMCSer) (t : MMC3Ser) :
    s.dumpWrite =
        cpuBanksSeg s ++ ppuBanksSeg s ++ chrSeg s ++ cpuRamSeg s ++
          ppuRamSeg s ∧
      m.dumpWrite = m.core.dumpWrite ++ mmcVariantSeg m ∧
      t.dumpWrite = t.core.dumpWrite ++ mmc3VariantSeg t := by
  refine ⟨by simp [MapperState.dumpWrite, MapperState.dumpW_eq], ?_, ?_⟩
  · simp [MMCSer.dumpWrite, MMCSer.dumpW, MapperState.dumpWrite,
      MapperState.dumpW_eq, mmcVariantSeg]
  · simp [MMC3Ser.dumpWrite, MMC3Ser.dumpW, MapperState.dumpWrite,
      MapperState.dumpW_eq, mmc3VariantSeg]

/-- C6.  For the MMC2/MMC4 mapper, a PPU read at `0x0FD8` toggles latch 0
on and a read at `0x0FE8` toggles it off; a read in `0x1FD8-0x1FDF`
toggles latch 1 on and a read in `0x1FE8-0x1FEF` toggles it off; after
each such read latch 0 selects between CHR bank registers 0 and 1 for
pattern-table pages `0x0-0x3` and latch 1 between registers 2 and 3 for
pages `0x4-0x7`. -/
theorem claim6_mmc_latches (s : MMCState) :
    ((s.read_ppu 0x0FD8).2.latch0 = true ∧
      (∀ p < 4, (s.read_ppu 0x0FD8).2.banks_ppu p =
        s.chr_bank_entry (s.sel0 * 4 + p)) ∧
      (∀ p < 4, (s.read_ppu 0x0FD8).2.banks_ppu (4 + p) =
        s.chr_bank_entry ((if s.latch1 then s.sel2 else s.sel3) * 4 + p))) ∧
    ((s.read_ppu 0x0FE8).2.latch0 = false ∧
      (∀ p < 4, (s.read_ppu 0x0FE8).2.banks_ppu p =
        s.chr_bank_entry (s.sel1 * 4 + p)) ∧
      (∀ p < 4, (s.read_ppu 0x0FE8).2.banks_ppu (4 + p) =
        s.chr_bank_entry ((if s.latch1 then s.sel2 else s.sel3) * 4 + p))) ∧
    (∀ a, 0x1FD8 ≤ a → a < 0x1FE0 →
      (s.read_ppu a).2.latch1 = true ∧
      (∀ p < 4, (s.read_ppu a).2.banks_ppu (4 + p) =
        s.chr_bank_entry (s.sel2 * 4 + p)) ∧
      (∀ p < 4, (s.read_ppu a).2.banks_ppu p =
        s.chr_bank_entry ((if s.latch0 then s.sel0 else s.sel1) * 4 + p))) ∧
    (∀ a, 0x1FE8 ≤ a → a < 0x1FF0 →
      (s.read_ppu a).2.latch1 = false ∧
      (∀ p < 4, (s.read_ppu a).2.banks_ppu (4 + p) =
        s.chr_bank_entry (s.sel3 * 4 + p)) ∧
      (∀ p < 4, (s.read_ppu a).2.banks_ppu p =
        s.chr_bank_entry ((if s.latch0 then s.sel0 else s.sel1) * 4 + p))) := by
  refine ⟨⟨?_, fun p hp => ?_, fun p hp => ?_⟩,
    ⟨?_, fun p hp => ?_, fun p hp => ?_⟩,
    fun a ha₁ ha₂ => ⟨?_, fun p hp => ?_, fun p hp => ?_⟩,
    fun a ha₁ ha₂ => ⟨?_, fun p hp => ?_, fun p hp => ?_⟩⟩
  · rw [MMCState.read_ppu_snd_fd8]
    exact (MMCState.update_banks_latches _).1
  · rw [MMCState.read_ppu_snd_fd8, MMCState.update_banks_ppu_low _ p hp]
    rfl
  · rw [MMCState.read_ppu_snd_fd8, MMCState.update_banks_ppu_high _ p hp]
    rfl
  · rw [MMCState.read_ppu_snd_fe8]
    exact (MMCState.update_banks_latches _).1
  · rw [MMCState.read_ppu_snd_fe8, MMCState.update_banks_ppu_low _ p hp]
    rfl
  · rw [MMCState.read_ppu_snd_fe8, MMCState.update_banks_ppu_high _ p hp]
    rfl
  · rw [MMCState.read_ppu_snd_latch1_set s a ha₁ ha₂]
    exact (MMCState.update_banks_latches _).2
  · rw [MMCState.read_ppu_snd_latch1_set s a ha₁ ha₂,
      MMCState.update_banks_ppu_high _ p hp]
    rfl
  · rw [MMCState.read_ppu_snd_latch1_set s a ha₁ ha₂,
      MMCState.update_banks_ppu_low _ p hp]
    rfl
  · rw [MMCState.read_ppu_snd_latch1_clear s a ha₁ ha₂]
    exact (MMCState.update_banks_latches _).2
  · rw [MMCState.read_ppu_snd_latch1_clear s a ha₁ ha₂,
      MMCState.update_banks_ppu_high _ p hp]
    rfl
  · rw [MMCState.read_ppu_snd_latch1_clear s a ha₁ ha₂,
      MMCState.update_banks_ppu_low _ p hp]
    rfl

/-- Witness for C6: the latch effects of four concrete PPU reads on a
concrete MMC2 state. -/
theorem claim6_witness :
    (mmcTest.read_ppu 0x0FD8).2.banks_ppu 2 =
        mmcTest.chr_bank_entry (mmcTest.sel0 * 4 + 2) ∧
      (mmcTest.read_ppu 0x0FE8).2.latch0 = false ∧
      (mmcTest.read_ppu 0x1FD9).2.latch1 = true ∧
      (mmcTest.read_ppu 0x1FEA).2.latch1 = false :=
  ⟨(claim6_mmc_latches mmcTest).1.2.1 2 (by decide),
    (claim6_mmc_latches mmcTest).2.1.1,
    ((claim6_mmc_latches mmcTest).2.2.1 0x1FD9 (by decide) (by decide)).1,
    ((claim6_mmc_latches mmcTest).2.2.2 0x1FEA (by decide) (by decide)).1⟩

/-- C7.  For the MMC2/MMC4 mapper, a CPU write in `0xA000-0xAFFF` remaps
the low PRG window at `0x8000` (CPU pages `0x20` onward) to PRG bank
`value & 0xF` (in `BANK_SIZE`-KiB units); a write in `0xB000-0xEFFF`
stores `value & 0x1F` into the CHR bank register selected by the
`0x1000`-wide address range; a write at `0xF000` or above sets
horizontal mirroring when bit 0 of the value is 1 and vertical mirroring
when it is 0. -/
theorem claim7_mmc_write_cpu (s : MMCState) (a v : Nat) :
    (0xA000 ≤ a → a < 0xB000 → ∀ i < s.bank_size,
      (s.write_cpu a v).banks_cpu (0x20 + i) =
        s.prg_bank_entry ((v % 0x10) * s.bank_size + i)) ∧
    (0xB000 ≤ a → a < 0xC000 → (s.write_cpu a v).sel0 = v % 0x20) ∧
    (0xC000 ≤ a → a < 0xD000 → (s.write_cpu a v).sel1 = v % 0x20) ∧
    (0xD000 ≤ a → a < 0xE000 → (s.write_cpu a v).sel2 = v % 0x20) ∧
    (0xE000 ≤ a → a < 0xF000 → (s.write_cpu a v).sel3 = v % 0x20) ∧
    (0xF000 ≤ a → a < 0x10000 →
      (s.write_cpu a v).mirroring =
        if v % 2 = 1 then MirroringMode.HORIZONTAL
        else MirroringMode.VERTICAL) := by
  refine ⟨fun h₁ h₂ i hi => ?_, fun h₁ h₂ => ?_, fun h₁ h₂ => ?_,
    fun h₁ h₂ => ?_, fun h₁ h₂ => ?_, fun h₁ h₂ => ?_⟩
  · have hno : ¬a < 0xA000 := by omega
    have hyes : 0x20 ≤ 0x20 + i ∧ 0x20 + i < 0x20 + s.bank_size := by omega
    simp [MMCState.write_cpu, MMCState.map_bank_prg, MMCState.prg_bank_entry,
      hno, h₂, hyes]
  · have hno : ¬a < 0xA000 := by omega
    have hno₂ : ¬a < 0xB000 := by omega
    simp [MMCState.write_cpu, hno, hno₂, h₂, MMCState.update_banks_sel]
  · have hno : ¬a < 0xA000 := by omega
    have hno₂ : ¬a < 0xB000 := by omega
    have hno₃ : ¬a < 0xC000 := by omega
    simp [MMCState.write_cpu, hno, hno₂, hno₃, h₂,
      (MMCState.update_banks_sel _).2.1]
  · have hno : ¬a < 0xA000 := by omega
    have hno₂ : ¬a < 0xB000 := by omega
    have hno₃ : ¬a < 0xC000 := by omega
    have hno₄ : ¬a < 0xD000 := by omega
    simp [MMCState.write_cpu, hno, hno₂, hno₃, hno₄, h₂,
      (MMCState.update_banks_sel _).2.2.1]
  · have hno : ¬a < 0xA000 := by omega
    have hno₂ : ¬a < 0xB000 := by omega
    have hno₃ : ¬a < 0xC000 := by omega
    have hno₄ : ¬a < 0xD000 := by omega
    have hno₅ : ¬a < 0xE000 := by omega
    simp [MMCState.write_cpu, hno, hno₂, hno₃, hno₄, hno₅, h₂,
      (MMCState.update_banks_sel _).2.2.2]
  · have hno : ¬a < 0xA000 := by omega
    have hno₂ : ¬a < 0xB000 := by omega
    have hno₃ : ¬a < 0xC000 := by omega
    have hno₄ : ¬a < 0xD000 := by omega
    have hno₅ : ¬a < 0xE000 := by omega
    have hno₆ : ¬a < 0xF000 := by omega
    by_cases hv : v % 2 = 1 <;>
      simp [MMCState.write_cpu, MMCState.set_mirroring_mode, hno, hno₂,
        hno₃, hno₄, hno₅, hno₆, hv]

/-- Witness for C7: the six register effects at concrete addresses and
values on a concrete MMC2 state. -/
theorem claim7_witness :
    (mmcTest.write_cpu 0xA123 0x35).banks_cpu (0x20 + 3) =
        mmcTest.prg_bank_entry ((0x35 % 0x10) * mmcTest.bank_size + 3) ∧
      (mmcTest.write_cpu 0xB001 0x7F).sel0 = 0x7F % 0x20 ∧
      (mmcTest.write_cpu 0xC000 0x22).sel1 = 0x22 % 0x20 ∧
      (mmcTest.write_cpu 0xDFFF 0x01).sel2 = 0x01 % 0x20 ∧
      (mmcTest.write_cpu 0xE800 0x1F).sel3 = 0x1F % 0x20 ∧
      (mmcTest.write_cpu 0xF000 0x03).mirroring = MirroringMode.HORIZONTAL ∧
      (mmcTest.write_cpu 0xFFFF 0x02).mirroring = MirroringMode.VERTICAL :=
  ⟨(claim7_mmc_write_cpu mmcTest 0xA123 0x35).1 (by decide) (by decide) 3
      (by decide),
    (claim7_mmc_write_cpu mmcTest 0xB001 0x7F).2.1 (by decide) (by decide),
    (claim7_mmc_write_cpu mmcTest 0xC000 0x22).2.2.1 (by decide) (by decide),
    (claim7_mmc_write_cpu mmcTest 0xDFFF 0x01).2.2.2.1 (by decide)
      (by decide),
    (claim7_mmc_write_cpu mmcTest 0xE800 0x1F).2.2.2.2.1 (by decide)
      (by decide),
    (claim7_mmc_write_cpu mmcTest 0xF000 0x03).2.2.2.2.2 (by decide)
      (by decide),
    (claim7_mmc_write_cpu mmcTest 0xFFFF 0x02).2.2.2.2.2 (by decide)
      (by decide)⟩

/-- C10.  For the MMC2/MMC4 mapper, a PPU read returns the byte fetched
under the bank mapping in effect before the latch update: the value is
read through the pre-read bank table of `s`, so the latch change and the
CHR remapping affect only subsequent reads. -/
theorem claim10_read_before_remap (s : MMCState) (address : Nat) :
    (s.read_ppu address).1 =
      (if (s.banks_ppu (address / 0x400 % 0x10)).mapped then
        s.memory.getD
          ((s.banks_ppu (address / 0x400 % 0x10)).offset + address % 0x400) 0
      else 0) :=
  rfl

/-- C8.  For an MMC2/MMC4 mapper built over PRG and CHR regions of the
declared sizes, after any sequence of operations (`write_cpu`,
`write_ppu`, `read_ppu`, `tick`) following construction, every mapped
bank-table entry satisfies `offset + 0x400 ≤` the length of the mapper
memory array: no bank entry ever references memory past the end of the
cartridge memory. -/
theorem claim8_banks_within_memory (bank_size banks_prg banks_chr : Nat)
    (ro : Bool) (mode : MirroringMode) (prg chr : List Nat)
    (ops : List MMCOp)
    (hprg : prg.length = banks_prg * 0x400)
    (hchr : chr.length = banks_chr * 0x400)
    (h₁ : 0 < banks_prg) (h₂ : 0 < banks_chr) :
    ((MMCState.init bank_size banks_prg banks_chr ro mode prg
      chr).applyAll ops).BanksValid :=
  MMCState.applyAll_valid _ ops
    (MMCState.init_sizes_wf bank_size banks_prg banks_chr ro mode prg chr
      hprg hchr h₁ h₂)
    (MMCState.init_valid bank_size banks_prg banks_chr ro mode prg chr
      hprg hchr h₁ h₂)

/-- Witness for C8: a one-bank MMC2-shaped cartridge driven through a
write, a latch-toggling read and a tick. -/
theorem claim8_witness :
    (List.replicate 0x400 (0 : Nat)).length = 1 * 0x400 ∧ (0 : Nat) < 1 ∧
      ((MMCState.init 8 1 1 false MirroringMode.VERTICAL
        (List.replicate 0x400 0) (List.replicate 0x400 0)).applyAll
        [MMCOp.write_cpu_op 0xB000 0x1F, MMCOp.read_ppu_op 0x0FD8,
          MMCOp.tick_op]).BanksValid :=
  ⟨by rw [List.length_replicate, one_mul], by decide,
    claim8_banks_within_memory 8 1 1 false MirroringMode.VERTICAL
      (List.replicate 0x400 0) (List.replicate 0x400 0)
      [MMCOp.write_cpu_op 0xB000 0x1F, MMCOp.read_ppu_op 0x0FD8,
        MMCOp.tick_op]
      (by rw [List.length_replicate, one_mul])
      (by rw [List.length_replicate, one_mul]) (by decide) (by decide)⟩

theorem NesWrapper.apply_frame {σ : Type} (C : CoreOps σ)
    (w : NesWrapper σ) (op : WOp) :
    (w.apply C op).frame = w.frame := by
  cases op <;> rfl

theorem NesWrapper.applyAll_frame {σ : Type} (C : CoreOps σ)
    (w : NesWrapper σ) (ops : List WOp) :
    (w.applyAll C ops).frame = w.frame := by
  induction ops generalizing w with
  | nil => rfl
  | cons op t ih =>
    exact (ih (w.apply C op)).trans (w.apply_frame C op)

theorem NesWrapper.apply_crash_kept {σ : Type} (C : CoreOps σ)
    (w : NesWrapper σ) (op : WOp) (hop : op.clears_crash = false)
    (hc : w.crashed = true) : (w.apply C op).crashed = true := by
  cases op <;>
    simp_all [NesWrapper.apply, NesWrapper.step, NesWrapper.write,
      WOp.clears_crash]

/-- C3.  For every handle reachable from construction by any sequence of
wrapper operations, and for every `step` call, the returned frame view
has shape `240 x 256 x 3` bytes with row-major byte strides
`{256*3, 3, 1}` (row-major RGB) and its writeable flag is cleared, so
mutation through the view is rejected. -/
theorem claim3_frame_view {σ : Type} (C : CoreOps σ) (core : σ)
    (ops : List WOp) (frames : Nat) :
    (((NesWrapper.init C core).applyAll C ops).step C frames).2.shape =
        [240, 256, 3] ∧
      (((NesWrapper.init C core).applyAll C ops).step C
        frames).2.strides = [256 * 3, 3, 1] ∧
      (((NesWrapper.init C core).applyAll C ops).step C
        frames).2.writeable = false := by
  have h : (((NesWrapper.init C core).applyAll C ops).step C
      frames).2 = (NesWrapper.init C core).frame := by
    show ((NesWrapper.init C core).applyAll C ops).frame = _
    exact NesWrapper.applyAll_frame C _ ops
  rw [h]
  exact ⟨rfl, rfl, rfl⟩

/-- C5.  Once a step has reported a CPU crash (a `KIL` opcode executed),
`has_crashed` is true; it never becomes false across any sequence of
subsequent operations other than `load` and `reset`, and `load` and
`reset` are exactly the operations that clear it. -/
theorem claim5_crash_latch {σ : Type} (C : CoreOps σ) (w : NesWrapper σ) :
    (∀ n, (C.step w.nes w.controller n).2 = true →
      ((w.step C n).1).crashed = true) ∧
    (∀ ops : List WOp, w.crashed = true →
      (∀ op ∈ ops, op.clears_crash = false) →
      (w.applyAll C ops).crashed = true) ∧
    (∀ b, (w.load C b).crashed = false) ∧
    ((w.reset C).crashed = false) := by
  refine ⟨fun n h => ?_, fun ops => ?_, fun b => rfl, rfl⟩
  · simp [NesWrapper.step, h]
  · induction ops generalizing w with
    | nil => exact fun hc _ => hc
    | cons op t ih =>
      intro hc hall
      exact ih (w.apply C op)
        (w.apply_crash_kept C op (hall op (List.mem_cons_self op t)) hc)
        (fun x hx => hall x (List.mem_cons_of_mem op hx))

/-- Witness for C5: a crashed handle stays crashed through a step and a
controller write, a crash-reporting step latches the flag, and `load`
clears it. -/
theorem claim5_witness :
    ((wCrashed.step unitCoreOps 1).1).crashed = true ∧
      (wCrashed.applyAll unitCoreOps
        [WOp.step_op 1, WOp.controller_op 3]).crashed = true ∧
      (wCrashed.load unitCoreOps []).crashed = false :=
  ⟨(claim5_crash_latch unitCoreOps wCrashed).1 1 rfl,
    (claim5_crash_latch unitCoreOps wCrashed).2.1
      [WOp.step_op 1, WOp.controller_op 3] rfl (by decide),
    (claim5_crash_latch unitCoreOps wCrashed).2.2.1 []⟩

/-- C4.  `get_all_ram` returns a view of exactly 2048 bytes, and after a
CPU write to an address in `[0x0000, 0x0800)` the byte at the
corresponding index of that view equals the written value. -/
theorem claim4_ram_view (w : NesWrapper NesCore) (a v : Nat)
    (hlen : w.nes.ram.length = 2048) (ha : a < 0x800) (hv : v < 256) :
    (NesWrapper.read_all_ram nesCoreOps
        (w.write nesCoreOps a v)).length = 2048 ∧
      (NesWrapper.read_all_ram nesCoreOps
        (w.write nesCoreOps a v)).getD a 0 = v := by
  have ha₂ : a < 0x2000 := by omega
  have hmod : a % 0x800 = a := Nat.mod_eq_of_lt ha
  have hvmod : v % 256 = v := Nat.mod_eq_of_lt hv
  have hidx : a < w.nes.ram.length := by omega
  constructor
  · simp [NesWrapper.read_all_ram, NesWrapper.write, nesCoreOps,
      NesCore.cpu_write, ha₂, hlen]
  · simp [NesWrapper.read_all_ram, NesWrapper.write, nesCoreOps,
      NesCore.cpu_write, ha₂, hmod, hvmod,
      List.getD_eq_getElem?_getD, List.getElem?_set_self', hidx]

/-- Witness for C4: a write of 7 at address 5 shows through the RAM
view of a freshly opened handle. -/
theorem claim4_witness :
    wRam.nes.ram.length = 2048 ∧ (5 : Nat) < 0x800 ∧ (7 : Nat) < 256 ∧
      ((NesWrapper.read_all_ram nesCoreOps
          (wRam.write nesCoreOps 5 7)).length = 2048 ∧
        (NesWrapper.read_all_ram nesCoreOps
          (wRam.write nesCoreOps 5 7)).getD 5 0 = 7) :=
  ⟨by rw [show wRam.nes.ram = List.replicate 2048 0 from rfl,
      List.length_replicate], by decide, by decide,
    claim4_ram_view wRam 5 7
      (by rw [show wRam.nes.ram = List.replicate 2048 0 from rfl,
        List.length_replicate]) (by decide) (by decide)⟩

/-- C2 (evaluation of the code at the failing input).  `NesWrapper::load`
performs no validation of the buffer size: on a handle whose expected
save-state size is 2048 bytes and whose crash flag is latched, loading
an empty buffer raises nothing, overwrites the state and clears the
crash flag — the handle's state is not left unchanged and no
`InvalidSaveStateError` exists on this path. -/
theorem claim2_no_size_check :
    ([] : List Nat).length ≠ c2Handle.save_state_size ∧
      (c2Handle.load nesCoreOps []).crashed = false ∧
      c2Handle.crashed = true :=
  ⟨by decide, rfl, rfl⟩

end Cynes
